import Mathlib

/-
Verification of the expense-tracker record store
(`src/programs/expense-tracker/src/lib.rs`, an Anchor program).

The program's own code is three instruction handler bodies
(`initialize_expense`, `modify_expense`, `delete_expense`), three account
constraint blocks (`InitializeExpense`, `ModifyExpense`, `DeleteExpense`)
and the `ExpenseAccount` data struct.  We embed these shallowly:

* `ExpenseAccount` mirrors the Rust struct; `u64` fields become `Nat`
  (the program never performs arithmetic on them, so no overflow arises),
  `Pubkey` becomes a 32-byte list, and `String` becomes its UTF-8 byte
  list (every capacity question in the program is about byte length).
* The handler bodies are translated verbatim as `initialize_expense`,
  `modify_expense`, `delete_expense`.
* The parts the source only requests from the host runtime (the `init`,
  `mut`, `close = authority`, `seeds`/`bump` and `Signer` constraints,
  and the exit-time serialization of the account into its fixed `space`
  allocation) are modelled from the spec; each such definition says so
  in its doc comment.
-/

namespace ExpenseTracker

/-- Byte strings: a `Vec<u8>`/UTF-8 view of the data the program stores. -/
abbrev Bytes := List Nat

/-- A 32-byte public key, as `anchor_lang::prelude::Pubkey`: its raw key bytes. -/
abbrev Pubkey := {l : Bytes // l.length = 32}

/-- `u64::to_le_bytes` from the source's seed expression `id.to_le_bytes()`:
the 8-byte little-endian encoding of the id (a `u64`; each byte is taken with
an explicit `% 256`, so values are encoded exactly as the machine integer,
truncated at `2 ^ 64`). -/
def u64_le_bytes (n : Nat) : Bytes :=
  [n % 256, n / 256 % 256, n / 256 ^ 2 % 256, n / 256 ^ 3 % 256,
   n / 256 ^ 4 % 256, n / 256 ^ 5 % 256, n / 256 ^ 6 % 256, n / 256 ^ 7 % 256]

/-- The fixed domain tag of the seed list: the bytes of `b"expense"`. -/
def EXPENSE_TAG : Bytes := [101, 120, 112, 101, 110, 115, 101]

/-- Modelled from the spec: `address(owner, id)`.  The source declares the
seeds `[b"expense", authority.key().as_ref(), id.to_le_bytes().as_ref()]`
and `bump`; the host runtime (absent from `src/`) hashes those seeds plus a
discovered bump byte through a collision-resistant one-way function to the
actual account address.  Per the spec the derivation is deterministic and
collision-free across distinct seed tuples, and the bump is itself a
deterministic function of the seeds, so we model the address as the seed
concatenation itself. -/
def address (owner : Pubkey) (id : Nat) : Bytes :=
  EXPENSE_TAG ++ owner.val ++ u64_le_bytes id

/-- The `ExpenseAccount` struct of the source, field for field. -/
structure ExpenseAccount where
  id : Nat
  owner : Pubkey
  merchant_name : Bytes
  amount : Nat
deriving DecidableEq

/-- The storage reservation requested by `InitializeExpense`:
`space = 8 + 8 + 32+ (4 + 12)+ 8 + 1` in the source. -/
def INIT_SPACE : Nat := 8 + 8 + 32 + (4 + 12) + 8 + 1

/-- Modelled from the spec: the serialized footprint of a record, an 8-byte
discriminator/tag followed by the Borsh encoding of the struct fields —
8 (`id`) + 32 (`owner`) + 4 + byte length (`merchant_name`, a length-prefixed
string) + 8 (`amount`).  The serializer lives in the host framework, not in
`src/`; the spec fixes this layout in its §6 byte budget. -/
def serializedSize (e : ExpenseAccount) : Nat :=
  8 + 8 + 32 + (4 + e.merchant_name.length) + 8

/-- Modelled from the spec: the error taxonomy of §7.  The source defines no
error type of its own; these are the names the spec gives to the failures the
host environment raises (missing signer, `init` on an occupied address,
`seeds` resolution on an absent account, serialization overflowing the
reserved space). -/
inductive Err where
  | InvalidCaller
  | AddressAlreadyInUse
  | RecordNotFound
  | CapacityExceeded
deriving DecidableEq

/-- The body of `initialize_expense` from the source: sets
`expense_account.id = id`, `.merchant_name = merchant_name`,
`.amount = amount`, `.owner = *ctx.accounts.authority.key`, then `Ok(())`.
It returns the freshly written account; like the Rust `Result`, it could
signal an error, but no path does. -/
def initialize_expense (authority_key : Pubkey) (id : Nat) (merchant_name : Bytes)
    (amount : Nat) : Except Err ExpenseAccount :=
  .ok { id := id, owner := authority_key, merchant_name := merchant_name, amount := amount }

/-- The body of `modify_expense` from the source: overwrites
`expense_account.merchant_name` and `.amount`, then `Ok(())`. -/
def modify_expense (expense_account : ExpenseAccount) (merchant_name : Bytes)
    (amount : Nat) : Except Err ExpenseAccount :=
  .ok { expense_account with merchant_name := merchant_name, amount := amount }

/-- The body of `delete_expense` from the source: `Ok(())` — the account
closing itself is performed by the `close = authority` constraint. -/
def delete_expense : Except Err Unit := .ok ()

/-- The ledger state the program acts on: the record stored at each derived
address (if any), and each identity's balance (`Int`, so debits never
truncate).  Balances model only what the program touches: the storage
deposit paid by `payer = authority` at `init` and refunded by
`close = authority`. -/
structure Chain where
  records : Bytes → Option ExpenseAccount
  balance : Pubkey → Int

/-- Point update of the record map. -/
def setRecord (c : Chain) (a : Bytes) (v : Option ExpenseAccount) :
    Bytes → Option ExpenseAccount :=
  fun x => if x = a then v else c.records x

/-- The spec's `get(caller, id)`: read the record at the derived address. -/
def get (c : Chain) (caller : Pubkey) (id : Nat) : Option ExpenseAccount :=
  c.records (address caller id)

/-- One `initialize_expense` transaction.  The handler body is
`initialize_expense` above; the surrounding checks are modelled from the
spec, in the order the host applies them: the `Signer` constraint on
`authority`, the `init` constraint (fails on an occupied address), the
handler body, then exit-time serialization of the written account into the
`space = INIT_SPACE` allocation, debiting the storage deposit `rent` from
the payer.  A failed transaction leaves the chain unchanged. -/
def runCreate (c : Chain) (authority : Pubkey) (signed : Bool) (id : Nat)
    (merchant_name : Bytes) (amount : Nat) (rent : Nat) : Chain × Option Err :=
  match signed with
  | false => (c, some .InvalidCaller)
  | true =>
    match c.records (address authority id) with
    | some _ => (c, some .AddressAlreadyInUse)
    | none =>
      match initialize_expense authority id merchant_name amount with
      | .error e => (c, some e)
      | .ok acc =>
        if serializedSize acc ≤ INIT_SPACE then
          ({ records := setRecord c (address authority id) (some acc),
             balance := fun k => if k = authority then c.balance k - rent else c.balance k },
           none)
        else (c, some .CapacityExceeded)

/-- One `modify_expense` transaction: `Signer` check, `seeds` resolution of
the existing account (fails when absent), the handler body
`modify_expense`, then exit-time serialization into the account's fixed
`INIT_SPACE`-byte allocation.  Host checks modelled from the spec. -/
def runModify (c : Chain) (authority : Pubkey) (signed : Bool) (id : Nat)
    (merchant_name : Bytes) (amount : Nat) : Chain × Option Err :=
  match signed with
  | false => (c, some .InvalidCaller)
  | true =>
    match c.records (address authority id) with
    | none => (c, some .RecordNotFound)
    | some acc0 =>
      match modify_expense acc0 merchant_name amount with
      | .error e => (c, some e)
      | .ok acc =>
        if serializedSize acc ≤ INIT_SPACE then
          ({ records := setRecord c (address authority id) (some acc),
             balance := c.balance },
           none)
        else (c, some .CapacityExceeded)

/-- One `delete_expense` transaction: `Signer` check, `seeds` resolution of
the existing account (fails when absent), the handler body `delete_expense`,
then the `close = authority` constraint, which reclaims the record's storage
and refunds its deposit `rent` to the authority.  Host behaviour modelled
from the spec. -/
def runDelete (c : Chain) (authority : Pubkey) (signed : Bool) (id : Nat)
    (rent : Nat) : Chain × Option Err :=
  match signed with
  | false => (c, some .InvalidCaller)
  | true =>
    match c.records (address authority id) with
    | none => (c, some .RecordNotFound)
    | some _ =>
      match delete_expense with
      | .error e => (c, some e)
      | .ok _ =>
        ({ records := setRecord c (address authority id) none,
           balance := fun k => if k = authority then c.balance k + rent else c.balance k },
         none)

/-- The reachable ledger states: any all-empty record store (with arbitrary
balances), closed under running the three transactions with arbitrary
arguments (a failing transaction returns the unchanged chain, so both
outcomes are covered by taking the first component). -/
inductive Reachable : Chain → Prop
  | boot (bal : Pubkey → Int) : Reachable { records := fun _ => none, balance := bal }
  | create (c : Chain) (A : Pubkey) (sg : Bool) (id : Nat) (m : Bytes) (a rent : Nat)
      (h : Reachable c) : Reachable (runCreate c A sg id m a rent).1
  | modify (c : Chain) (A : Pubkey) (sg : Bool) (id : Nat) (m : Bytes) (a : Nat)
      (h : Reachable c) : Reachable (runModify c A sg id m a).1
  | delete (c : Chain) (A : Pubkey) (sg : Bool) (id : Nat) (rent : Nat)
      (h : Reachable c) : Reachable (runDelete c A sg id rent).1

/-- Concrete identity A for witnesses. -/
def pkA : Pubkey := ⟨List.replicate 32 1, by decide⟩

/-- Concrete identity B for witnesses. -/
def pkB : Pubkey := ⟨List.replicate 32 2, by decide⟩

/-- The bytes of "Coffee", a 6-byte merchant name. -/
def nameCoffee : Bytes := [67, 111, 102, 102, 101, 101]

/-- A 13-byte merchant name: one byte over the spec's 12-byte budget. -/
def name13 : Bytes := List.replicate 13 88

/-- The empty chain, with zero balances. -/
def chain0 : Chain := { records := fun _ => none, balance := fun _ => 0 }

/-- A chain holding one record: A's expense 7 ("Coffee", 500), created with a
deposit of 100. -/
def chainA : Chain := (runCreate chain0 pkA true 7 nameCoffee 500 100).1

/-- The record chainA holds at `address pkA 7`. -/
def eCoffee : ExpenseAccount :=
  { id := 7, owner := pkA, merchant_name := nameCoffee, amount := 500 }

/-- A 14-byte merchant name: two bytes over the spec's 12-byte budget. -/
def name14 : Bytes := List.replicate 14 88

/-- The bytes of "New", a 3-byte merchant name. -/
def nameNew : Bytes := [78, 101, 119]

/- ## Helper lemmas -/

/-- Two derived addresses agree only when the owners do: the owner's 32 raw
key bytes sit at a fixed offset of the seed tuple. -/
theorem address_eq_owner {o1 o2 : Pubkey} {i1 i2 : Nat}
    (h : address o1 i1 = address o2 i2) : o1 = o2 := by
  unfold address at h
  rw [List.append_assoc, List.append_assoc] at h
  have h2 := List.append_cancel_left h
  have h3 := List.append_inj h2 (o1.2.trans o2.2.symm)
  exact Subtype.ext h3.1

/-- The exit-time serialization fits the reservation exactly when the
merchant name is at most 13 bytes long. -/
theorem serializedSize_fits (e : ExpenseAccount) :
    serializedSize e ≤ INIT_SPACE ↔ e.merchant_name.length ≤ 13 := by
  unfold serializedSize INIT_SPACE
  omega

/-- A create transaction only touches the slot at the caller's derived
address. -/
theorem runCreate_frame (c : Chain) (A : Pubkey) (sg : Bool) (id : Nat)
    (m : Bytes) (a rent : Nat) (x : Bytes) (hx : x ≠ address A id) :
    (runCreate c A sg id m a rent).1.records x = c.records x := by
  cases sg
  · rfl
  · cases hrec : c.records (address A id) with
    | some e0 => simp [runCreate, hrec]
    | none =>
      simp only [runCreate, hrec, initialize_expense]
      split
      · simp [setRecord, hx]
      · rfl

/-- A modify transaction only touches the slot at the caller's derived
address. -/
theorem runModify_frame (c : Chain) (A : Pubkey) (sg : Bool) (id : Nat)
    (m : Bytes) (a : Nat) (x : Bytes) (hx : x ≠ address A id) :
    (runModify c A sg id m a).1.records x = c.records x := by
  cases sg
  · rfl
  · cases hrec : c.records (address A id) with
    | none => simp [runModify, hrec]
    | some e0 =>
      simp only [runModify, hrec, modify_expense]
      split
      · simp [setRecord, hx]
      · rfl

/-- A delete transaction only touches the slot at the caller's derived
address. -/
theorem runDelete_frame (c : Chain) (A : Pubkey) (sg : Bool) (id : Nat)
    (rent : Nat) (x : Bytes) (hx : x ≠ address A id) :
    (runDelete c A sg id rent).1.records x = c.records x := by
  cases sg
  · rfl
  · cases hrec : c.records (address A id) with
    | none => simp [runDelete, hrec]
    | some e0 =>
      simp only [runDelete, hrec, delete_expense]
      simp [setRecord, hx]

/-- Any record present after a create was either already there, or sits at
the caller's derived address and carries the caller as owner. -/
theorem runCreate_records_cases (c : Chain) (A : Pubkey) (sg : Bool) (id : Nat)
    (m : Bytes) (a rent : Nat) (x : Bytes) (e : ExpenseAccount)
    (h : (runCreate c A sg id m a rent).1.records x = some e) :
    c.records x = some e ∨ (x = address A id ∧ e.owner = A) := by
  by_cases hx : x = address A id
  · cases sg
    · exact Or.inl h
    · cases hrec : c.records (address A id) with
      | some e0 =>
        simp only [runCreate, hrec] at h
        exact Or.inl h
      | none =>
        simp only [runCreate, hrec, initialize_expense] at h
        split at h
        · subst hx
          simp only [setRecord, if_pos rfl] at h
          cases h
          exact Or.inr ⟨rfl, rfl⟩
        · exact Or.inl h
  · rw [runCreate_frame c A sg id m a rent x hx] at h
    exact Or.inl h

/-- Any record present after a modify was either already there, or replaces
a record that was there with the same owner. -/
theorem runModify_records_cases (c : Chain) (A : Pubkey) (sg : Bool) (id : Nat)
    (m : Bytes) (a : Nat) (x : Bytes) (e : ExpenseAccount)
    (h : (runModify c A sg id m a).1.records x = some e) :
    c.records x = some e ∨ ∃ e0, c.records x = some e0 ∧ e.owner = e0.owner := by
  by_cases hx : x = address A id
  · cases sg
    · exact Or.inl h
    · cases hrec : c.records (address A id) with
      | none =>
        simp only [runModify, hrec] at h
        exact Or.inl h
      | some e0 =>
        simp only [runModify, hrec, modify_expense] at h
        split at h
        · subst hx
          simp only [setRecord, if_pos rfl] at h
          cases h
          exact Or.inr ⟨e0, hrec, rfl⟩
        · exact Or.inl h
  · rw [runModify_frame c A sg id m a x hx] at h
    exact Or.inl h

/-- A delete never adds records: anything present afterwards was present
before. -/
theorem runDelete_records_sub (c : Chain) (A : Pubkey) (sg : Bool) (id : Nat)
    (rent : Nat) (x : Bytes) (e : ExpenseAccount)
    (h : (runDelete c A sg id rent).1.records x = some e) :
    c.records x = some e := by
  by_cases hx : x = address A id
  · cases sg
    · exact h
    · cases hrec : c.records (address A id) with
      | none =>
        simp only [runDelete, hrec] at h
        exact h
      | some e0 =>
        simp only [runDelete, hrec, delete_expense] at h
        subst hx
        simp only [setRecord, if_pos rfl] at h
        cases h
  · rw [runDelete_frame c A sg id rent x hx] at h
    exact h

/-- Ownership invariant: in every reachable chain, the record stored at
`address A id` (if any) has `owner = A`. -/
theorem reachable_owner {c : Chain} (hc : Reachable c) :
    ∀ (A : Pubkey) (id : Nat) (e : ExpenseAccount),
      c.records (address A id) = some e → e.owner = A := by
  induction hc with
  | boot bal => intro A id e h; exact absurd h (by simp)
  | create c' A' sg id' m a rent h ih =>
    intro A id e hrec
    rcases runCreate_records_cases c' A' sg id' m a rent (address A id) e hrec with
      h1 | ⟨haddr, hown⟩
    · exact ih A id e h1
    · rw [hown]
      exact (address_eq_owner haddr).symm
  | modify c' A' sg id' m a h ih =>
    intro A id e hrec
    rcases runModify_records_cases c' A' sg id' m a (address A id) e hrec with
      h1 | ⟨e0, h0, hown⟩
    · exact ih A id e h1
    · rw [hown]
      exact ih A id e0 h0
  | delete c' A' sg id' rent h ih =>
    intro A id e hrec
    exact ih A id e (runDelete_records_sub c' A' sg id' rent (address A id) e hrec)

/-- A signed create on a free slot with a fitting name succeeds and writes
exactly the handler's record, debiting the deposit from the payer. -/
theorem runCreate_ok (c : Chain) (A : Pubkey) (id : Nat) (m : Bytes) (a rent : Nat)
    (hfree : c.records (address A id) = none) (hlen : m.length ≤ 13) :
    runCreate c A true id m a rent =
      ({ records := setRecord c (address A id)
            (some { id := id, owner := A, merchant_name := m, amount := a }),
         balance := fun k => if k = A then c.balance k - rent else c.balance k },
       none) := by
  have hc : serializedSize { id := id, owner := A, merchant_name := m, amount := a }
      ≤ INIT_SPACE := by
    rw [serializedSize_fits]
    exact hlen
  simp only [runCreate, hfree, initialize_expense]
  rw [if_pos hc]

/-- A signed create on a free slot with an oversized name fails the
exit-time serialization and leaves the chain unchanged. -/
theorem runCreate_over (c : Chain) (A : Pubkey) (id : Nat) (m : Bytes) (a rent : Nat)
    (hfree : c.records (address A id) = none) (hlen : 14 ≤ m.length) :
    runCreate c A true id m a rent = (c, some Err.CapacityExceeded) := by
  have hc : ¬ serializedSize { id := id, owner := A, merchant_name := m, amount := a }
      ≤ INIT_SPACE := by
    rw [serializedSize_fits]
    show ¬ m.length ≤ 13
    omega
  simp only [runCreate, hfree, initialize_expense]
  rw [if_neg hc]

/-- A create on an occupied slot fails and leaves the chain unchanged. -/
theorem runCreate_occupied (c : Chain) (A : Pubkey) (id : Nat) (m : Bytes)
    (a rent : Nat) (e : ExpenseAccount) (he : c.records (address A id) = some e) :
    runCreate c A true id m a rent = (c, some Err.AddressAlreadyInUse) := by
  simp [runCreate, he]

/-- A signed modify of an existing record with a fitting name succeeds and
overwrites exactly the name and amount. -/
theorem runModify_ok (c : Chain) (A : Pubkey) (id : Nat) (m : Bytes) (a : Nat)
    (e : ExpenseAccount) (he : c.records (address A id) = some e)
    (hlen : m.length ≤ 13) :
    runModify c A true id m a =
      ({ records := setRecord c (address A id)
            (some { e with merchant_name := m, amount := a }),
         balance := c.balance },
       none) := by
  have hc : serializedSize { e with merchant_name := m, amount := a } ≤ INIT_SPACE := by
    rw [serializedSize_fits]
    exact hlen
  simp only [runModify, he, modify_expense]
  rw [if_pos hc]

/-- A signed modify with an oversized name fails the exit-time serialization
and leaves the chain unchanged. -/
theorem runModify_over (c : Chain) (A : Pubkey) (id : Nat) (m : Bytes) (a : Nat)
    (e : ExpenseAccount) (he : c.records (address A id) = some e)
    (hlen : 14 ≤ m.length) :
    runModify c A true id m a = (c, some Err.CapacityExceeded) := by
  have hc : ¬ serializedSize { e with merchant_name := m, amount := a } ≤ INIT_SPACE := by
    rw [serializedSize_fits]
    show ¬ m.length ≤ 13
    omega
  simp only [runModify, he, modify_expense]
  rw [if_neg hc]

/-- A modify of an absent record fails with `RecordNotFound`, chain
unchanged. -/
theorem runModify_absent (c : Chain) (A : Pubkey) (id : Nat) (m : Bytes) (a : Nat)
    (h : c.records (address A id) = none) :
    runModify c A true id m a = (c, some Err.RecordNotFound) := by
  simp [runModify, h]

/-- A signed delete of an existing record succeeds, clears the slot and
refunds the deposit to the authority. -/
theorem runDelete_some (c : Chain) (A : Pubkey) (id : Nat) (rent : Nat)
    (e : ExpenseAccount) (he : c.records (address A id) = some e) :
    runDelete c A true id rent =
      ({ records := setRecord c (address A id) none,
         balance := fun k => if k = A then c.balance k + rent else c.balance k },
       none) := by
  simp [runDelete, he, delete_expense]

/-- A delete of an absent record fails with `RecordNotFound`, chain
unchanged. -/
theorem runDelete_absent (c : Chain) (A : Pubkey) (id : Nat) (rent : Nat)
    (h : c.records (address A id) = none) :
    runDelete c A true id rent = (c, some Err.RecordNotFound) := by
  simp [runDelete, h]

/- ## The claims -/

/-- C1: In every reachable store state, a record stored at `address A id`
carries `A` as its stored owner, and a create, modify or delete transaction
signed by any `B ≠ A` leaves that record exactly unchanged: records can be
mutated or deleted only under the owner's own signature. -/
theorem C1_mutation_requires_owner (c : Chain) (hc : Reachable c) (A B : Pubkey)
    (id : Nat) (e : ExpenseAccount) (he : c.records (address A id) = some e)
    (hBA : B ≠ A) :
    e.owner = A ∧
    ∀ (sg : Bool) (id2 : Nat) (m : Bytes) (a rent : Nat),
      (runModify c B sg id2 m a).1.records (address A id) = some e ∧
      (runDelete c B sg id2 rent).1.records (address A id) = some e ∧
      (runCreate c B sg id2 m a rent).1.records (address A id) = some e := by
  have hne : ∀ id2, address A id ≠ address B id2 :=
    fun id2 hEq => hBA (address_eq_owner hEq).symm
  refine ⟨reachable_owner hc A id e he, fun sg id2 m a rent => ?_⟩
  exact ⟨by rw [runModify_frame c B sg id2 m a _ (hne id2)]; exact he,
    by rw [runDelete_frame c B sg id2 rent _ (hne id2)]; exact he,
    by rw [runCreate_frame c B sg id2 m a rent _ (hne id2)]; exact he⟩

/-- Witness for C1: B's signed modify/delete/create leave A's record 7
untouched in the concrete reachable chain holding it. -/
theorem C1_mutation_requires_owner_w :
    eCoffee.owner = pkA ∧
    (runModify chainA pkB true 9 name13 1).1.records (address pkA 7) = some eCoffee ∧
    (runDelete chainA pkB true 9 5).1.records (address pkA 7) = some eCoffee ∧
    (runCreate chainA pkB true 9 name13 1 5).1.records (address pkA 7) = some eCoffee := by
  have h := C1_mutation_requires_owner chainA
    (Reachable.create chain0 pkA true 7 nameCoffee 500 100 (Reachable.boot fun _ => 0))
    pkA pkB 7 eCoffee (by decide) (by decide)
  exact ⟨h.1, (h.2 true 9 name13 1 5).1, (h.2 true 9 name13 1 5).2.1,
    (h.2 true 9 name13 1 5).2.2⟩

/-- C2: create-then-get round trip — whenever `initialize_expense` succeeds,
the record read back at the derived address holds exactly the supplied id,
caller as owner, merchant name and amount. -/
theorem C2_create_get_roundtrip (c cnext : Chain) (A : Pubkey) (sg : Bool)
    (id : Nat) (m : Bytes) (a rent : Nat)
    (h : runCreate c A sg id m a rent = (cnext, none)) :
    get cnext A id = some { id := id, owner := A, merchant_name := m, amount := a } := by
  cases sg
  · simp [runCreate] at h
  · cases hrec : c.records (address A id) with
    | some e0 =>
      simp only [runCreate, hrec] at h
      simp at h
    | none =>
      simp only [runCreate, hrec, initialize_expense] at h
      split at h
      · injection h with h1 h2
        subst h1
        simp [get, setRecord]
      · simp at h

/-- Witness for C2 at concrete inputs. -/
theorem C2_create_get_roundtrip_w :
    get (runCreate chain0 pkA true 7 nameCoffee 500 100).1 pkA 7 =
      some { id := 7, owner := pkA, merchant_name := nameCoffee, amount := 500 } :=
  C2_create_get_roundtrip chain0 (runCreate chain0 pkA true 7 nameCoffee 500 100).1
    pkA true 7 nameCoffee 500 100 rfl

/-- C3 (counterexample): the storage reservation in `InitializeExpense` is
not the 72 bytes the claim states. -/
theorem C3_space_not_72 : INIT_SPACE ≠ 72 := by decide

/-- C3 (amended): the fixed storage reservation per record equals 73 bytes,
computed as 8 (discriminator) + 8 (id) + 32 (owner) + 4 (string length
prefix) + 12 (string byte capacity) + 8 (amount) + 1 extra reserved byte. -/
theorem C3_space_is_73 :
    INIT_SPACE = 8 + 8 + 32 + (4 + 12) + 8 + 1 ∧ INIT_SPACE = 73 := by decide

/-- C4 (counterexample): a create whose merchant name is 13 bytes — one byte
over the claimed 12-byte budget — succeeds instead of failing with
`CapacityExceeded`, because the reservation holds one extra byte. -/
theorem C4_one_byte_over_succeeds :
    name13.length = 12 + 1 ∧ (runCreate chain0 pkA true 7 name13 500 100).2 = none := by
  decide

/-- C4 (amended): for create and modify, a merchant name of at most 13 bytes
(the 12-byte budget plus the reservation's extra byte) fits and the
operation succeeds; at 14 bytes or more it fails with `CapacityExceeded`
rather than truncating. -/
theorem C4_capacity_boundary (c : Chain) (A : Pubkey) (idc idm : Nat)
    (e : ExpenseAccount) (m : Bytes) (a rent : Nat)
    (hfree : get c A idc = none) (hocc : get c A idm = some e) :
    (m.length ≤ 13 →
      (runCreate c A true idc m a rent).2 = none ∧
      (runModify c A true idm m a).2 = none) ∧
    (14 ≤ m.length →
      runCreate c A true idc m a rent = (c, some Err.CapacityExceeded) ∧
      runModify c A true idm m a = (c, some Err.CapacityExceeded)) := by
  constructor
  · intro hlen
    rw [runCreate_ok c A idc m a rent hfree hlen, runModify_ok c A idm m a e hocc hlen]
    exact ⟨rfl, rfl⟩
  · intro hlen
    exact ⟨runCreate_over c A idc m a rent hfree hlen,
      runModify_over c A idm m a e hocc hlen⟩

/-- Witness for C4 (amended) at concrete inputs: 13-byte names pass, 14-byte
names are rejected with `CapacityExceeded`. -/
theorem C4_capacity_boundary_w :
    (runCreate chainA pkA true 8 name13 1 100).2 = none ∧
    (runModify chainA pkA true 7 name13 1).2 = none ∧
    runCreate chainA pkA true 9 name14 1 100 = (chainA, some Err.CapacityExceeded) ∧
    runModify chainA pkA true 7 name14 1 = (chainA, some Err.CapacityExceeded) := by
  have h13 := C4_capacity_boundary chainA pkA 8 7 eCoffee name13 1 100
    (by decide) (by decide)
  have h14 := C4_capacity_boundary chainA pkA 9 7 eCoffee name14 1 100
    (by decide) (by decide)
  exact ⟨(h13.1 (by decide)).1, (h13.1 (by decide)).2,
    (h14.2 (by decide)).1, (h14.2 (by decide)).2⟩

/-- C5: a second create on the same (owner, id) without an intervening
delete fails with `AddressAlreadyInUse`, the chain is returned unchanged and
the existing record still reads back. -/
theorem C5_double_create_fails (c : Chain) (A : Pubkey) (id : Nat) (m : Bytes)
    (a rent : Nat) (e : ExpenseAccount) (he : get c A id = some e) :
    runCreate c A true id m a rent = (c, some Err.AddressAlreadyInUse) ∧
    (runCreate c A true id m a rent).1.records (address A id) = some e := by
  have h1 := runCreate_occupied c A id m a rent e he
  exact ⟨h1, by rw [h1]; exact he⟩

/-- Witness for C5 at concrete inputs. -/
theorem C5_double_create_fails_w :
    runCreate chainA pkA true 7 nameCoffee 1 100 = (chainA, some Err.AddressAlreadyInUse) ∧
    (runCreate chainA pkA true 7 nameCoffee 1 100).1.records (address pkA 7) = some eCoffee :=
  C5_double_create_fails chainA pkA 7 nameCoffee 1 100 eCoffee (by decide)

/-- C6: with no record at the derived address, modify and delete each fail
with `RecordNotFound` and leave the store unchanged. -/
theorem C6_absent_slot_fails (c : Chain) (A : Pubkey) (id : Nat) (m : Bytes)
    (a rent : Nat) (h : get c A id = none) :
    runModify c A true id m a = (c, some Err.RecordNotFound) ∧
    runDelete c A true id rent = (c, some Err.RecordNotFound) :=
  ⟨runModify_absent c A id m a h, runDelete_absent c A id rent h⟩

/-- Witness for C6 at concrete inputs. -/
theorem C6_absent_slot_fails_w :
    runModify chain0 pkA true 99 nameCoffee 1 = (chain0, some Err.RecordNotFound) ∧
    runDelete chain0 pkA true 99 100 = (chain0, some Err.RecordNotFound) :=
  C6_absent_slot_fails chain0 pkA 99 nameCoffee 1 100 (by decide)

/-- C7: a successful modify overwrites exactly `merchant_name` and `amount`
with the call's arguments; the stored `owner` and `id` are unchanged, and no
other slot of the store is touched. -/
theorem C7_modify_frame_effect (c cnext : Chain) (A : Pubkey) (id : Nat)
    (m : Bytes) (a : Nat) (e : ExpenseAccount) (he : get c A id = some e)
    (h : runModify c A true id m a = (cnext, none)) :
    get cnext A id = some { e with merchant_name := m, amount := a } ∧
    (∀ e2, get cnext A id = some e2 → e2.owner = e.owner ∧ e2.id = e.id) ∧
    ∀ x, x ≠ address A id → cnext.records x = c.records x := by
  by_cases hlen : m.length ≤ 13
  · have h1 := runModify_ok c A id m a e he hlen
    rw [h1] at h
    injection h with h2 h3
    subst h2
    have hget : get { records := setRecord c (address A id) (some { e with merchant_name := m, amount := a }), balance := c.balance } A id = some { e with merchant_name := m, amount := a } := by
      simp [get, setRecord]
    refine ⟨hget, fun e2 he2 => ?_, fun x hx => ?_⟩
    · rw [hget] at he2
      injection he2 with h4
      subst h4
      exact ⟨rfl, rfl⟩
    · simp [setRecord, hx]
  · have h1 := runModify_over c A id m a e he (by omega)
    rw [h1] at h
    simp at h

/-- Witness for C7 at concrete inputs. -/
theorem C7_modify_frame_effect_w :
    get (runModify chainA pkA true 7 name13 9).1 pkA 7 =
      some { eCoffee with merchant_name := name13, amount := 9 } ∧
    (runModify chainA pkA true 7 name13 9).1.records (address pkA 8) =
      chainA.records (address pkA 8) := by
  have h := C7_modify_frame_effect chainA (runModify chainA pkA true 7 name13 9).1
    pkA 7 name13 9 eCoffee (by decide) rfl
  exact ⟨h.1, h.2.2 (address pkA 8) (by decide)⟩

/-- C8: deleting an existing record succeeds, clears exactly that slot,
refunds the storage deposit to the authority, makes subsequent modify and
delete on the same (owner, id) fail with `RecordNotFound` as if the record
never existed, and lets a subsequent create on the same (owner, id) succeed
with a record holding only the newly supplied values. -/
theorem C8_delete_reclaims (c : Chain) (A : Pubkey) (id : Nat) (rent : Nat)
    (e : ExpenseAccount) (he : get c A id = some e) :
    (runDelete c A true id rent).2 = none ∧
    get (runDelete c A true id rent).1 A id = none ∧
    (runDelete c A true id rent).1.balance A = c.balance A + (rent : Int) ∧
    (∀ x, x ≠ address A id → (runDelete c A true id rent).1.records x = c.records x) ∧
    (∀ m a, runModify (runDelete c A true id rent).1 A true id m a =
      ((runDelete c A true id rent).1, some Err.RecordNotFound)) ∧
    (∀ rent2, runDelete (runDelete c A true id rent).1 A true id rent2 =
      ((runDelete c A true id rent).1, some Err.RecordNotFound)) ∧
    ∀ m a, m.length ≤ 13 →
      get (runCreate (runDelete c A true id rent).1 A true id m a rent).1 A id =
        some { id := id, owner := A, merchant_name := m, amount := a } := by
  have h1 := runDelete_some c A id rent e he
  have hgone : (runDelete c A true id rent).1.records (address A id) = none := by
    rw [h1]
    simp [setRecord]
  refine ⟨by rw [h1], hgone, by rw [h1]; simp, fun x hx => runDelete_frame c A true id rent x hx,
    fun m a => runModify_absent _ A id m a hgone,
    fun rent2 => runDelete_absent _ A id rent2 hgone,
    fun m a hlen => ?_⟩
  rw [runCreate_ok _ A id m a rent hgone hlen]
  simp [get, setRecord]

/-- Witness for C8 at concrete inputs: delete A's record 7, observe the
refund, the cleared slot, the `RecordNotFound` failures and the clean
re-creation. -/
theorem C8_delete_reclaims_w :
    (runDelete chainA pkA true 7 100).2 = none ∧
    get (runDelete chainA pkA true 7 100).1 pkA 7 = none ∧
    (runDelete chainA pkA true 7 100).1.balance pkA = chainA.balance pkA + (100 : Int) ∧
    (runDelete chainA pkA true 7 100).1.records (address pkB 7) =
      chainA.records (address pkB 7) ∧
    runModify (runDelete chainA pkA true 7 100).1 pkA true 7 nameCoffee 1 =
      ((runDelete chainA pkA true 7 100).1, some Err.RecordNotFound) ∧
    runDelete (runDelete chainA pkA true 7 100).1 pkA true 7 50 =
      ((runDelete chainA pkA true 7 100).1, some Err.RecordNotFound) ∧
    get (runCreate (runDelete chainA pkA true 7 100).1 pkA true 7 nameNew 1 100).1 pkA 7 =
      some { id := 7, owner := pkA, merchant_name := nameNew, amount := 1 } := by
  have h := C8_delete_reclaims chainA pkA 7 100 eCoffee (by decide)
  exact ⟨h.1, h.2.1, h.2.2.1, h.2.2.2.1 (address pkB 7) (by decide),
    h.2.2.2.2.1 nameCoffee 1, h.2.2.2.2.2.1 50, h.2.2.2.2.2.2 nameNew 1 (by decide)⟩

/-- C9: the derived address is a pure deterministic function of the domain
tag, the owner's raw key bytes and the little-endian id bytes — identical
inputs give identical outputs — and distinct owners never share an address
for any id. -/
theorem C9_address_pure_and_owner_injective (o1 o2 : Pubkey) (i : Nat)
    (hne : o1 ≠ o2) :
    address o1 i = address o1 i ∧ address o1 i ≠ address o2 i :=
  ⟨rfl, fun h => hne (address_eq_owner h)⟩

/-- Witness for C9 at concrete distinct identities. -/
theorem C9_address_pure_and_owner_injective_w :
    address pkA 7 = address pkA 7 ∧ address pkA 7 ≠ address pkB 7 :=
  C9_address_pure_and_owner_injective pkA pkB 7 (by decide)

/-- C10: neither handler body checks the merchant name's length — for a
name of any length whatsoever, `initialize_expense` and `modify_expense`
assign the string as given and return `Ok`; no path in the component's own
logic produces a capacity error. -/
theorem C10_handlers_never_check_length (A : Pubkey) (id : Nat) (m : Bytes)
    (a : Nat) (e : ExpenseAccount) :
    initialize_expense A id m a =
      .ok { id := id, owner := A, merchant_name := m, amount := a } ∧
    modify_expense e m a = .ok { e with merchant_name := m, amount := a } :=
  ⟨rfl, rfl⟩

end ExpenseTracker
